import Mathlib

/-!
Shallow embedding of the page-graph walker and accounting engine of the
raggi/sqlite forensic-tool suite (src/tool/pageacct.c, freelistck.c,
freelistfind.c, dumprow.c, tablewalk.c, pageowner.c), together with proofs
settling the frozen claims about it.

Modelling conventions:
* a database file is a function from page number and byte offset to a byte;
  every read applies `% 256`, mirroring the `u8` type of the C code;
* the parsed database header (the C global struct `g`) is the `Env`
  structure: page size, reserved space, max page, auto-vacuum mode,
  first freelist trunk;
* `readPage` succeeds exactly for page numbers in `1 .. mxPage` (the C
  tools compute `mxPage` from the file size, so an in-range `read` of a
  whole page succeeds);
* recursive walks carry an explicit fuel argument; `none` / `.spin` means
  the walk was still running after `fuel` nested calls or loop iterations,
  which is how unbounded recursion is observed in the embedding;
* arithmetic is on `Nat`.  The C code uses `u32`; for the quantities the
  theorems touch, hypotheses such as `512 ≤ usable` keep every subtraction
  away from `u32` wrap-around, so truncated `Nat` subtraction agrees with
  the source.  Payload sizes read by `decodeVarint` fit in 64 bits by
  construction and the tools only use them below `2^30`, where the `i64`
  of the C code and `Nat` agree.
-/

/-- Page classification, from the `PageType` enum of pageacct.c lines 96-115. -/

inductive PageType where
  | unknown
  | freelistTrunk
  | freelistLeaf
  | btreeInteriorIndex
  | btreeInteriorTable
  | btreeLeafIndex
  | btreeLeafTable
  | overflow
  | ptrmap
  | lockbyte
  | orphanBtreeInteriorIndex
  | orphanBtreeInteriorTable
  | orphanBtreeLeafIndex
  | orphanBtreeLeafTable
  | orphanOverflow
  | orphanEmpty
  deriving DecidableEq

/-- Diagnostics the tools print while walking (conflict messages of
`markPage`, pageacct.c lines 244-248, and the invalid-leaf-count error of
freelistck.c lines 240-244).  The embedding records them as data instead of
writing to stderr. -/

inductive Diag where
  | conflict (pgno : Nat) (oldType newType : PageType)
  | invalidLeafCount (pgno : Nat)
  deriving DecidableEq

/-- The parsed database file together with the header fields the walkers
consume: the C global struct `g` after `readHeader` (pageacct.c lines
117-132), with the file contents as `byte pgno off`. -/

structure Env where
  pagesize : Nat
  reserved : Nat
  mxPage : Nat
  autoVacuum : Nat
  firstFreelist : Nat
  byte : Nat → Nat → Nat

/-- One byte of page `pgno`; `% 256` models the `u8` reads of the C code. -/

def byteAt (e : Env) (pgno off : Nat) : Nat :=
  e.byte pgno off % 256

/-- Big-endian 16-bit read, as in `read16` (dumprow.c lines 52-54). -/

def get16 (e : Env) (pgno off : Nat) : Nat :=
  byteAt e pgno off * 256 + byteAt e pgno (off + 1)

/-- Big-endian 32-bit read, as in `get32` (pageacct.c lines 157-159). -/

def get32 (e : Env) (pgno off : Nat) : Nat :=
  byteAt e pgno off * 2 ^ 24 + byteAt e pgno (off + 1) * 2 ^ 16 +
    byteAt e pgno (off + 2) * 2 ^ 8 + byteAt e pgno (off + 3)

/-- Loop of `decodeVarint` (pageacct.c lines 307-317): `k` is the number of
7-bit continuation bytes still permitted, `v` the accumulator, `c` the
bytes consumed so far.  After eight continuation bytes all eight bits of
the ninth byte are appended. -/

def decodeVarintGo (b : Nat → Nat) (off : Nat) : Nat → Nat → Nat → Nat × Nat
  | 0, v, c => (v * 256 + b (off + c) % 256, c + 1)
  | k + 1, v, c =>
    let x := b (off + c) % 256
    if x < 128 then (v * 128 + x, c + 1)
    else decodeVarintGo b off k (v * 128 + (x - 128)) (c + 1)

/-- SQLite variable-length integer decoder, `decodeVarint` of pageacct.c
lines 307-317 (identical in freelistfind.c and, as `readVarint`, in
dumprow.c / tablewalk.c / pageowner.c).  Returns (value, bytes consumed). -/

def decodeVarint (b : Nat → Nat) (off : Nat) : Nat × Nat :=
  decodeVarintGo b off 8 0 0

/-! ### The local/overflow payload split (claim C1)

Three distinct translations of the table-leaf local-payload computation,
one per tool cited by the claim.  `U` is the usable page size
(pagesize − reserved). -/

/-- Table-leaf local payload length as pageacct.c walkBtree lines 507-519
computes it: when the payload exceeds `maxLocal`, the surplus formula is
used, falling back to `minLocal` whenever the surplus itself exceeds
`maxLocal`. -/

def acctTableLeafLocal (usable payload : Nat) : Nat :=
  let maxLocal := usable - 35
  let minLocal := (usable - 12) * 32 / 255 - 23
  if payload > maxLocal then
    let surplus := minLocal + (payload - minLocal) % (usable - 4)
    if surplus ≤ maxLocal then surplus else minLocal
  else payload

/-- Table-leaf local payload length as dumprow.c searchLeaf lines 254-264
computes it: `minLocal + (payload − minLocal) % (U − 4)` with no fallback
to `minLocal`. -/

def dumprowTableLeafLocal (usable payload : Nat) : Nat :=
  let maxLocal := usable - 35
  let minLocal := (usable - 12) * 32 / 255 - 23
  if payload ≤ maxLocal then payload
  else minLocal + (payload - minLocal) % (usable - 4)

/-- Table-leaf local payload length as tablewalk.c processLeafCell lines
375-384 computes it; textually the same formula as dumprow.c, again with
no fallback. -/

def tablewalkTableLeafLocal (usable payload : Nat) : Nat :=
  let maxLocal := usable - 35
  let minLocal := (usable - 12) * 32 / 255 - 23
  if payload ≤ maxLocal then payload
  else minLocal + (payload - minLocal) % (usable - 4)

/-- Modelled from the spec (section 3, "Local vs. overflow split"): the
local payload length with the fallback, exactly as the specification words
it.  Used as the refinement target the per-tool computations are compared
against. -/

def specTableLeafLocal (usable payload : Nat) : Nat :=
  let maxLocal := usable - 35
  let minLocal := (usable - 12) * 32 / 255 - 23
  if payload ≤ maxLocal then payload
  else
    let localLen := minLocal + (payload - minLocal) % (usable - 4)
    if localLen > maxLocal then minLocal else localLen

/-! ### Classification state and `markPage` (pageacct.c) -/

/-- Pointwise update of a page-indexed map. -/

def setAt {α : Type} (f : Nat → α) (a : Nat) (v : α) : Nat → α :=
  fun x => if x = a then v else f x

/-- The mutable accounting state of pageacct.c: the `pageTypes` and
`pageParents` arrays, the diagnostics printed so far, and the two ptrmap
counters of the global struct `g`. -/

structure AcctState where
  types : Nat → PageType
  parents : Nat → Nat
  diags : List Diag
  ptrmapGhost : Nat
  ptrmapMissing : Nat

/-- The zero-initialised state `calloc` produces in pageacct.c main
lines 1012-1013. -/

def initAcctState : AcctState :=
  ⟨fun _ => PageType.unknown, fun _ => 0, [], 0, 0⟩

/-- `markPage` of pageacct.c lines 240-252: out-of-range page numbers are
ignored; marking an already-marked page with a different type prints a
conflict diagnostic; the type and parent are then overwritten. -/

def markPage (mxPage : Nat) (st : AcctState) (pgno : Nat) (t : PageType)
    (parent : Nat) : AcctState :=
  if pgno < 1 ∨ pgno > mxPage then st
  else
    let st1 :=
      if st.types pgno ≠ PageType.unknown ∧ st.types pgno ≠ t then
        { st with diags := st.diags ++ [Diag.conflict pgno (st.types pgno) t] }
      else st
    { st1 with types := setAt st1.types pgno t, parents := setAt st1.parents pgno parent }

/-! ### The freelist walkers (pageacct.c and freelistck.c, claims C4 and C6) -/

/-- Outcome of a freelist walk: the loop reached `pgno = 0` (`done`,
C return value 0), aborted with an error (`abort`, C return value 1 on a
cycle or a failed `readPage`), or was still running when the fuel ran out
(`spin`). -/

inductive FlOut (σ : Type) where
  | done (st : σ)
  | abort (st : σ)
  | spin (st : σ)
  deriving DecidableEq

/-- The state carried by a freelist-walk outcome. -/

def FlOut.state {σ : Type} : FlOut σ → σ
  | .done st => st
  | .abort st => st
  | .spin st => st

/-- True exactly for a completed walk. -/

def FlOut.isDone {σ : Type} : FlOut σ → Bool
  | .done _ => true
  | _ => false

/-- One trunk iteration of pageacct.c walkFreelist lines 281-297: mark the
trunk, read the stored leaf count, clamp it silently to
`(pagesize − 8) / 4`, and mark each listed leaf page. -/

def acctFlBody (e : Env) (pgno : Nat) (st : AcctState) : AcctState :=
  let st1 := markPage e.mxPage st pgno PageType.freelistTrunk 0
  let numLeaves := get32 e pgno 4
  let maxLeaves := (e.pagesize - 8) / 4
  let numLeaves := if numLeaves > maxLeaves then maxLeaves else numLeaves
  (List.range numLeaves).foldl
    (fun st i => markPage e.mxPage st (get32 e pgno (8 + i * 4)) PageType.freelistLeaf pgno)
    st1

/-- The `while (pgno != 0)` loop of pageacct.c walkFreelist lines 255-304:
cycle check against the visited list (capped at 10000 entries), then
`readPage` (which fails, aborting the walk, for a page number outside
`1 .. mxPage`), then the trunk body, then on to `nextTrunk` at offset 0. -/

def acctFreelistLoop (e : Env) : Nat → Nat → List Nat → AcctState → FlOut AcctState
  | 0, _, _, st => .spin st
  | fuel + 1, pgno, visited, st =>
    if pgno = 0 then .done st
    else if pgno ∈ visited then .abort st
    else
      let visited2 := if visited.length < 10000 then visited ++ [pgno] else visited
      if pgno < 1 ∨ pgno > e.mxPage then .abort st
      else acctFreelistLoop e fuel (get32 e pgno 0) visited2 (acctFlBody e pgno st)

/-- pageacct.c walkFreelist, started from the header's first trunk. -/

def acctWalkFreelist (e : Env) (fuel : Nat) : FlOut AcctState :=
  acctFreelistLoop e fuel e.firstFreelist [] initAcctState

/-- The record freelistck.c keeps: the `FreelistPage` list built by
`addFreelistPage` (lines 171-194), each entry `(pgno, isTrunk, parent)`,
plus the diagnostics printed. -/

structure CkState where
  entries : List (Nat × Bool × Nat)
  diags : List Diag
  deriving DecidableEq

/-- Empty initial record of freelistck.c. -/

def initCkState : CkState := ⟨[], []⟩

/-- One trunk iteration of freelistck.c walkFreelist lines 224-258: record
the trunk, and when the stored leaf count exceeds `(pagesize − 8) / 4`
report the invalid count and clamp; then record each listed leaf page
(with no range check on the leaf page numbers). -/

def ckFlBody (e : Env) (pgno : Nat) (st : CkState) : CkState :=
  let st1 : CkState := { st with entries := st.entries ++ [(pgno, true, 0)] }
  let numLeaves := get32 e pgno 4
  let maxLeaves := (e.pagesize - 8) / 4
  let p : CkState × Nat :=
    if numLeaves > maxLeaves then
      ({ st1 with diags := st1.diags ++ [Diag.invalidLeafCount pgno] }, maxLeaves)
    else (st1, numLeaves)
  (List.range p.2).foldl
    (fun st i => { st with entries := st.entries ++ [(get32 e pgno (8 + i * 4), false, pgno)] })
    p.1

/-- The trunk loop of freelistck.c walkFreelist lines 197-266, same
skeleton as pageacct.c's: cycle check, `readPage` range check, body,
continue at `nextTrunk`. -/

def ckFreelistLoop (e : Env) : Nat → Nat → List Nat → CkState → FlOut CkState
  | 0, _, _, st => .spin st
  | fuel + 1, pgno, visited, st =>
    if pgno = 0 then .done st
    else if pgno ∈ visited then .abort st
    else
      let visited2 := if visited.length < 10000 then visited ++ [pgno] else visited
      if pgno < 1 ∨ pgno > e.mxPage then .abort st
      else ckFreelistLoop e fuel (get32 e pgno 0) visited2 (ckFlBody e pgno st)

/-- freelistck.c walkFreelist, started from the header's first trunk. -/

def ckWalkFreelist (e : Env) (fuel : Nat) : FlOut CkState :=
  ckFreelistLoop e fuel e.firstFreelist [] initCkState

/-- A 2-page database whose single freelist trunk (page 2) lists the
out-of-range leaf page 50: trunk header `next = 0`, `count = 1`,
`leaf[0] = 50`. -/

def envLeafOutOfRange : Env :=
  { pagesize := 512, reserved := 0, mxPage := 2, autoVacuum := 0, firstFreelist := 2,
    byte := fun pgno off =>
      if pgno = 2 ∧ off = 7 then 1 else if pgno = 2 ∧ off = 11 then 50 else 0 }

/-- A 2-page database whose single freelist trunk (page 2) stores the
invalid leaf count 200 (the 512-byte page fits at most 126 leaf
entries); every leaf slot reads as page number 0. -/

def envClampSilent : Env :=
  { pagesize := 512, reserved := 0, mxPage := 2, autoVacuum := 0, firstFreelist := 2,
    byte := fun pgno off => if pgno = 2 ∧ off = 7 then 200 else 0 }

/-! ### Header page-size decoding (claim C5) -/

/-- Page-size decode of pageacct.c readHeader lines 204-212 (identical in
freelistck.c's first readHeader, lines 132-139, and freelistfind.c's
first, lines 165-172): big-endian 16-bit value, then 1 ⇒ 65536, then
0 ⇒ 1024. -/

def acctPageSize (b16 b17 : Nat) : Nat :=
  let sz := (b16 % 256) * 256 + b17 % 256
  let sz := if sz = 1 then 65536 else sz
  if sz = 0 then 1024 else sz

/-- Page-size decode of dumprow.c readPageSize lines 57-61 (identical in
tablewalk.c and pageowner.c): only the value 1 is special-cased; a stored
0 stays 0. -/

def dumprowPageSize (b16 b17 : Nat) : Nat :=
  let sz := (b16 % 256) * 256 + b17 % 256
  if sz = 1 then 65536 else sz

/-- Page-size decode of the second readHeader in freelistck.c, lines
441-443 (identical in freelistfind.c's second copy, lines 632-634):
`(header[16]<<8) | (header[17]<<16)`, then 0 ⇒ 65536, then 1 ⇒ 65536. -/

def freelistck2PageSize (b16 b17 : Nat) : Nat :=
  let sz := (b16 % 256) * 256 + (b17 % 256) * 65536
  let sz := if sz = 0 then 65536 else sz
  if sz = 1 then 65536 else sz

/-! ### Pointer-map pages (claim C7) -/

/-- `isPtrmapPosition` of pageacct.c lines 323-337: deterministic ptrmap
positions from usable size; page 1 is never one. -/

def isPtrmapPosition (e : Env) (pgno : Nat) : Bool :=
  let usableSize := e.pagesize - e.reserved
  let pagesPerPtrmap := usableSize / 5
  let firstPtrmap := pagesPerPtrmap + 1
  if pgno = 1 then false
  else if pgno < firstPtrmap then false
  else if (pgno - firstPtrmap) % (pagesPerPtrmap + 1) = 0 then true
  else false

/-- `isPtrmapPage` of pageacct.c lines 340-345: no ptrmap pages when
auto-vacuum is disabled. -/

def isPtrmapPage (e : Env) (pgno : Nat) : Bool :=
  if e.autoVacuum = 0 then false else isPtrmapPosition e pgno

/-- The entry scan of `isValidPtrmapData`, pageacct.c lines 624-641:
`k` entries remain, `i` is the current entry index, `hasValid` records
whether a non-zero entry was seen.  A type byte above 5, or a non-zero
entry whose parent exceeds `mxPage`, rejects the page immediately;
note a parent of 0 is accepted ("or 0 for root pages"). -/

def ptrmapScan (e : Env) (pgno : Nat) : Nat → Nat → Bool → Bool
  | 0, _, hasValid => hasValid
  | k + 1, i, hasValid =>
    let t := byteAt e pgno (i * 5)
    if t > 5 then false
    else if t ≠ 0 then
      if get32 e pgno (i * 5 + 1) > e.mxPage then false
      else ptrmapScan e pgno k (i + 1) true
    else ptrmapScan e pgno k (i + 1) hasValid

/-- `isValidPtrmapData` of pageacct.c lines 617-645: scan all
`usable / 5` entries of the page. -/

def isValidPtrmapData (e : Env) (pgno : Nat) : Bool :=
  ptrmapScan e pgno ((e.pagesize - e.reserved) / 5) 0 false

/-- One 5-byte entry is acceptable to the code: type byte at most 5, and
for a non-zero type a parent of at most `mxPage` (0 included). -/

def ptrmapEntryOk (e : Env) (pgno i : Nat) : Bool :=
  decide (byteAt e pgno (i * 5) ≤ 5) &&
    (decide (byteAt e pgno (i * 5) = 0) || decide (get32 e pgno (i * 5 + 1) ≤ e.mxPage))

/-- All entries of the candidate page are acceptable. -/

def ptrmapEntriesOk (e : Env) (pgno : Nat) : Bool :=
  (List.range ((e.pagesize - e.reserved) / 5)).all (ptrmapEntryOk e pgno)

/-- Some entry of the candidate page has a non-zero type byte. -/

def ptrmapHasNonzero (e : Env) (pgno : Nat) : Bool :=
  (List.range ((e.pagesize - e.reserved) / 5)).any
    (fun i => decide (byteAt e pgno (i * 5) ≠ 0))

/-- Modelled from the spec (section 4.5): the claimed validation
criterion, which requires every non-zero entry to reference a parent in
`1 .. max_page` — parent 0 is not allowed by the spec's words. -/

def specPtrmapCriterion (e : Env) (pgno : Nat) : Bool :=
  ((List.range ((e.pagesize - e.reserved) / 5)).all
    (fun i => decide (byteAt e pgno (i * 5) ≤ 5) &&
      (decide (byteAt e pgno (i * 5) = 0) ||
        (decide (1 ≤ get32 e pgno (i * 5 + 1)) &&
         decide (get32 e pgno (i * 5 + 1) ≤ e.mxPage))))) &&
  ptrmapHasNonzero e pgno

/-- The body of one candidate iteration of markPtrmapPages, pageacct.c
lines 659-690: an already-classified candidate only bumps the missing
counter (when auto-vacuum is on); an unclassified candidate with valid
ptrmap data is marked `PAGE_PTRMAP` (bumping the ghost counter when
auto-vacuum is off); an invalid candidate bumps the missing counter. -/

def ptrmapMarkBody (e : Env) (pgno : Nat) (st : AcctState) : AcctState :=
  if st.types pgno ≠ PageType.unknown then
    if e.autoVacuum ≠ 0 then { st with ptrmapMissing := st.ptrmapMissing + 1 } else st
  else if isValidPtrmapData e pgno then
    let st3 := markPage e.mxPage st pgno PageType.ptrmap 0
    if e.autoVacuum = 0 then { st3 with ptrmapGhost := st3.ptrmapGhost + 1 } else st3
  else
    if e.autoVacuum ≠ 0 then { st with ptrmapMissing := st.ptrmapMissing + 1 } else st

/-- The candidate loop of markPtrmapPages, pageacct.c lines 658-691:
`pgno` runs from `firstPtrmap` in strides of `pagesPerPtrmap + 1` while
`pgno ≤ mxPage`.  The fuel bounds the number of iterations; since the
stride is at least 1, `mxPage + 1` iterations always suffice. -/

def ptrmapMarkLoop (e : Env) : Nat → Nat → AcctState → AcctState
  | 0, _, st => st
  | k + 1, pgno, st =>
    if pgno > e.mxPage then st
    else ptrmapMarkLoop e k (pgno + ((e.pagesize - e.reserved) / 5 + 1))
      (ptrmapMarkBody e pgno st)

/-- `markPtrmapPages` of pageacct.c lines 650-692: reset both counters,
then scan every candidate position. -/

def markPtrmapPages (e : Env) (st : AcctState) : AcctState :=
  ptrmapMarkLoop e (e.mxPage + 1) ((e.pagesize - e.reserved) / 5 + 1)
    { st with ptrmapGhost := 0, ptrmapMissing := 0 }

/-- A 10-page database whose page 3 holds a single ptrmap-shaped entry of
type 1 with parent page 0; all other entry bytes are zero. -/

def envPtrmapParentZero : Env :=
  { pagesize := 512, reserved := 0, mxPage := 10, autoVacuum := 0, firstFreelist := 0,
    byte := fun pgno off => if pgno = 3 ∧ off = 0 then 1 else 0 }

/-! ### Overflow chains (claim C3) -/

/-- The overflow-chain loop of pageacct.c walkBtree lines 523-532 (the
same loop appears at lines 460-469 for interior-index cells and lines
552-561 for index leaves): while the next pointer lies in `1 .. mxPage`,
break if the page is already classified, otherwise mark it as overflow
and follow the 4-byte pointer at offset 0 of the overflow page.  Fuel
counts loop iterations; `none` means the loop was still running. -/

def acctOvflChain (e : Env) (parent : Nat) : Nat → Nat → AcctState → Option AcctState
  | 0, _, _ => none
  | fuel + 1, ovfl, st =>
    if ovfl = 0 ∨ ovfl > e.mxPage then some st
    else if st.types ovfl ≠ PageType.unknown then some st
    else acctOvflChain e parent fuel (get32 e ovfl 0)
      (markPage e.mxPage st ovfl PageType.overflow parent)

/-- The number of pages of `1 .. mxPage` still unclassified. -/

def countUnknown (mxPage : Nat) (types : Nat → PageType) : Nat :=
  ((List.range mxPage).map (· + 1)).countP (fun p => decide (types p = PageType.unknown))

/-- `markInUse` of freelistfind.c lines 202-206: set the bitmap bit for
an in-range page, silently ignore the rest. -/

def markInUse (mxPage : Nat) (inUse : Nat → Bool) (pgno : Nat) : Nat → Bool :=
  if 1 ≤ pgno ∧ pgno ≤ mxPage then setAt inUse pgno true else inUse

/-- The overflow-chain loop of freelistfind.c walkBtree lines 390-396:
while the next pointer lies in `1 .. mxPage`, mark the page in use and
follow the pointer at offset 0.  Unlike pageacct.c there is no
already-seen check.  Fuel counts loop iterations; `none` means the loop
was still running.  (pageowner.c lines 170-175 walk the chain the same
way, halting only on a zero pointer or a failed read.) -/

def ffOvflChain (e : Env) : Nat → Nat → (Nat → Bool) → Option (Nat → Bool)
  | 0, _, _ => none
  | fuel + 1, ovfl, inUse =>
    if ovfl = 0 ∨ ovfl > e.mxPage then some inUse
    else ffOvflChain e fuel (get32 e ovfl 0) (markInUse e.mxPage inUse ovfl)

/-- A 2-page database whose overflow chain is a 2-cycle: page 1's next
pointer is 2 and page 2's next pointer is 1. -/

def envOvflCycle : Env :=
  { pagesize := 512, reserved := 0, mxPage := 2, autoVacuum := 0, firstFreelist := 0,
    byte := fun pgno off =>
      if pgno = 1 ∧ off = 3 then 2 else if pgno = 2 ∧ off = 3 then 1 else 0 }

/-! ### Option-valued loop helper -/

/-- Fold a fallible step over a list, propagating fuel exhaustion. -/

def optFold {α σ : Type} (f : σ → α → Option σ) : List α → σ → Option σ
  | [], st => some st
  | a :: l, st =>
    match f st a with
    | none => none
    | some st2 => optFold f l st2

/-! ### dumprow.c and tablewalk.c (claims C2 and C8)

dumprow.c and tablewalk.c parse `totalPages` out of the header's page
count at offset 28 rather than the file size, and dumprow.c carries the
target rowid; `DumpCtx` is that context struct.  The hex dumps and
statistics these tools print are presentation and are not modelled;
neither is dumprow.c's single shared page buffer (the spec's section 9
names per-frame buffers as the correct variant) — each call here reads
its own page, which only matters after a recursive call returns, a
situation none of the settled claims depends on. -/

/-- The context struct of dumprow.c (lines 36-44) and tablewalk.c (lines
46-67): page size, reserved space, total pages from the header, and the
rowid being searched for. -/

structure DumpCtx where
  pageSize : Nat
  reservedSpace : Nat
  totalPages : Nat
  targetRowid : Nat
  byte : Nat → Nat → Nat

/-- Big-endian 16-bit read from a `DumpCtx` page. -/

def get16d (c : DumpCtx) (pgno off : Nat) : Nat :=
  c.byte pgno off % 256 * 256 + c.byte pgno (off + 1) % 256

/-- Big-endian 32-bit read from a `DumpCtx` page. -/

def get32d (c : DumpCtx) (pgno off : Nat) : Nat :=
  c.byte pgno off % 256 * 2 ^ 24 + c.byte pgno (off + 1) % 256 * 2 ^ 16 +
    c.byte pgno (off + 2) % 256 * 2 ^ 8 + c.byte pgno (off + 3) % 256

/-- `searchLeaf` of dumprow.c lines 235-282, reduced to its observable
outcome (was the target rowid found in this leaf page?).  Note the i-th
cell pointer is read at `hdr + 8 + 12 + 2·i`, and offsets below
`hdr + 8` or at and beyond `pagesize − reserved` are skipped. -/

def dumprowSearchLeaf (c : DumpCtx) (pgno hdr : Nat) : Bool :=
  (List.range (get16d c pgno (hdr + 3))).any (fun i =>
    let cellOffset := get16d c pgno (hdr + 8 + 12 + i * 2)
    if cellOffset < hdr + 8 then false
    else if cellOffset ≥ c.pageSize - c.reservedSpace then false
    else
      let pv := decodeVarint (c.byte pgno) cellOffset
      let rv := decodeVarint (c.byte pgno) (cellOffset + pv.2)
      decide (rv.1 = c.targetRowid))

/-- Body of `walkBtree` of dumprow.c lines 285-326, parameterised by the
recursive call: return at once when the rowid was already found or the
page number is 0 or beyond `totalPages`; search table leaves; on interior
table pages descend into each cell's left child whose interior key bounds
the target, then into the rightmost child. -/

def dumprowWalkF (c : DumpCtx) (rec : Nat → Bool → Option Bool)
    (pgno : Nat) (found : Bool) : Option Bool :=
  if found then some found
  else if pgno = 0 ∨ pgno > c.totalPages then some found
  else
    let hdr := if pgno = 1 then 100 else 0
    let t := c.byte pgno hdr % 256
    if t = 13 then some (dumprowSearchLeaf c pgno hdr)
    else if t = 5 then do
      let found2 ← optFold (fun f i =>
          if f then some f
          else
            let cellOffset := get16d c pgno (hdr + 8 + i * 2)
            if cellOffset < hdr + 8 then some f
            else
              let childPgno := get32d c pgno cellOffset
              let key := (decodeVarint (c.byte pgno) (cellOffset + 4)).1
              if c.targetRowid ≤ key then rec childPgno f else some f)
        (List.range (get16d c pgno (hdr + 3))) found
      if found2 then some found2
      else rec (get32d c pgno (hdr + 8)) found2
    else some found

/-- `walkBtree` of dumprow.c with fuel counting nested calls: `none`
means the descent was still running after `fuel` levels of recursion.
dumprow.c has no visited set and no depth parameter. -/

def dumprowWalk (c : DumpCtx) (fuel : Nat) : Nat → Bool → Option Bool :=
  Nat.rec (fun _ _ => none) (fun _ ih pgno found => dumprowWalkF c ih pgno found) fuel

/-- `processLeafCell` of tablewalk.c lines 320-434, reduced to whether
this cell sets `foundTarget`: bounds-check the cell offset and both
varints against the usable size, then compare the rowid.  The statistics
and the record dump are presentation and not modelled. -/

def tablewalkProcessLeafCell (c : DumpCtx) (pgno cellOffset hdr : Nat) : Bool :=
  let usableSize := c.pageSize - c.reservedSpace
  if cellOffset < hdr + 8 then false
  else if cellOffset ≥ usableSize then false
  else
    let pv := decodeVarint (c.byte pgno) cellOffset
    if pv.2 < 1 ∨ pv.2 > 9 ∨ cellOffset + pv.2 ≥ usableSize then false
    else
      let rv := decodeVarint (c.byte pgno) (cellOffset + pv.2)
      if rv.2 < 1 ∨ rv.2 > 9 ∨ cellOffset + pv.2 + rv.2 ≥ usableSize then false
      else decide (c.targetRowid ≠ 0 ∧ rv.1 = c.targetRowid)

/-- `processLeafPage` of tablewalk.c lines 437-459: the i-th cell pointer
is read at `hdr + 8 + 2·i`, immediately after the 8-byte leaf header, and
every cell is processed. -/

def tablewalkProcessLeafPage (c : DumpCtx) (pgno : Nat) : Bool :=
  let hdr := if pgno = 1 then 100 else 0
  (List.range (get16d c pgno (hdr + 3))).any (fun i =>
    tablewalkProcessLeafCell c pgno (get16d c pgno (hdr + 8 + i * 2)) hdr)

/-- A 2-page database for the rowid search: page 2 is a table leaf
(type 0x0d) with one cell; the cell-pointer array at offset `hdr + 8`
holds the offset 400; the cell at 400 is payload-size 3, rowid 7; the
bytes at offset `hdr + 20` are zero. -/

def dumpCtxLeaf : DumpCtx :=
  { pageSize := 512, reservedSpace := 0, totalPages := 2, targetRowid := 7,
    byte := fun pgno off =>
      if pgno = 2 then
        if off = 0 then 13
        else if off = 4 then 1
        else if off = 8 then 1
        else if off = 9 then 144
        else if off = 400 then 3
        else if off = 401 then 7
        else 0
      else 0 }

/-- A 3-page database whose b-tree pointers form a cycle: pages 2 and 3
are interior table pages (type 0x05) with no cells whose rightmost-child
pointers point at each other. -/

def dumpCtxCycle : DumpCtx :=
  { pageSize := 512, reservedSpace := 0, totalPages := 3, targetRowid := 1,
    byte := fun pgno off =>
      if pgno = 2 ∧ off = 0 then 5
      else if pgno = 2 ∧ off = 11 then 3
      else if pgno = 3 ∧ off = 0 then 5
      else if pgno = 3 ∧ off = 11 then 2
      else 0 }

/-! ### The b-tree walkers of pageacct.c and freelistfind.c (claims C2, C9, C10) -/

/-- One interior cell of pageacct.c walkBtree lines 406-413: read the
2-byte cell pointer at `hdr + 12 + 2·i`, bounds-check it, and descend
into the 4-byte left-child pointer at the cell. -/

def acctChildStep (e : Env) (rec : Nat → Nat → Nat → AcctState → Option AcctState)
    (pgno hdr depth : Nat) (st : AcctState) (i : Nat) : Option AcctState :=
  let cellOffset := get16 e pgno (hdr + 12 + i * 2)
  if 4 ≤ cellOffset ∧ cellOffset < e.pagesize then
    rec (get32 e pgno cellOffset) pgno (depth + 1) st
  else some st

/-- One interior-index cell of pageacct.c walkBtree lines 424-473: skip
the 4-byte child pointer, decode the payload-size varint, apply the
index local/overflow split (with the fallback to `minLocal`), and walk
the overflow chain when one exists. -/

def acctIdxOvflStep (e : Env) (chainFuel pgno hdr : Nat) (st : AcctState)
    (i : Nat) : Option AcctState :=
  let cellOffset := get16 e pgno (hdr + 12 + i * 2)
  if cellOffset < e.pagesize - 4 - 4 then
    let pv := decodeVarint (e.byte pgno) (cellOffset + 4)
    let pos := cellOffset + 4 + pv.2
    if 0 < pv.1 ∧ pv.1 < 1073741824 then
      let usable := e.pagesize - e.reserved
      let maxLocal := (usable - 12) * 64 / 255 - 23
      let minLocal := (usable - 12) * 32 / 255 - 23
      if pv.1 > maxLocal then
        let surplus := minLocal + (pv.1 - minLocal) % (usable - 4)
        let localSize := if surplus ≤ maxLocal then surplus else minLocal
        if pos + localSize + 4 ≤ e.pagesize then
          acctOvflChain e pgno chainFuel (get32 e pgno (pos + localSize)) st
        else some st
      else some st
    else some st
  else some st

/-- One leaf cell of pageacct.c walkBtree lines 481-566: decode the
payload-size varint (and for a table leaf, `t = 13`, also the rowid
varint), apply the table formula (`U − 35`) or the index formula
(`(U−12)·64/255 − 23`), both with the fallback to `minLocal`, and walk
the overflow chain when one exists. -/

def acctLeafOvflStep (e : Env) (chainFuel pgno hdr t : Nat) (st : AcctState)
    (i : Nat) : Option AcctState :=
  let cellOffset := get16 e pgno (hdr + 8 + i * 2)
  if cellOffset < e.pagesize - 4 then
    let pv := decodeVarint (e.byte pgno) cellOffset
    let pos := if t = 13 then
        cellOffset + pv.2 + (decodeVarint (e.byte pgno) (cellOffset + pv.2)).2
      else cellOffset + pv.2
    if 0 < pv.1 ∧ pv.1 < 1073741824 then
      let usable := e.pagesize - e.reserved
      let maxLocal := if t = 13 then usable - 35
        else (usable - 12) * 64 / 255 - 23
      let minLocal := (usable - 12) * 32 / 255 - 23
      if pv.1 > maxLocal then
        let surplus := minLocal + (pv.1 - minLocal) % (usable - 4)
        let localSize := if surplus ≤ maxLocal then surplus else minLocal
        if pos + localSize + 4 ≤ e.pagesize then
          acctOvflChain e pgno chainFuel (get32 e pgno (pos + localSize)) st
        else some st
      else some st
    else some st
  else some st

/-- The cell loops of pageacct.c walkBtree, after the page has been
classified: interior pages descend into each cell's left child and then
into the rightmost child at `hdr + 8` (lines 402-418); interior index
pages additionally scan each cell for overflow (lines 421-475); leaf
pages scan each cell for overflow (lines 478-568).  Every loop iterates
over at most `min nCell (pagesize/2)` cells. -/

def acctWalkBtreeBody (e : Env) (rec : Nat → Nat → Nat → AcctState → Option AcctState)
    (chainFuel pgno hdr t depth : Nat) (st : AcctState) : Option AcctState :=
  let cap := min (get16 e pgno (hdr + 3)) (e.pagesize / 2)
  Option.bind
    (if t = 2 ∨ t = 5 then
      Option.bind (optFold (acctChildStep e rec pgno hdr depth) (List.range cap) st)
        (fun st => rec (get32 e pgno (hdr + 8)) pgno (depth + 1) st)
    else some st)
    (fun st =>
      Option.bind
        (if t = 2 then
          optFold (acctIdxOvflStep e chainFuel pgno hdr) (List.range cap) st
        else some st)
        (fun st =>
          if t = 13 ∨ t = 10 then
            optFold (acctLeafOvflStep e chainFuel pgno hdr t) (List.range cap) st
          else some st))

/-- Body of `walkBtree` of pageacct.c lines 348-571, parameterised by the
recursive call `rec` and by the fuel handed to the overflow-chain loops.
In order: the three guards (range, already-classified, depth) of lines
357-359; the ptrmap-position skip of line 362; the ghost-ptrmap counter
of lines 365-376; the type-byte dispatch of lines 382-394; `markPage`;
then the interior child walk (lines 402-418), the interior-index
overflow scan (lines 421-475) and the leaf overflow scan (lines
478-568), each iterating over at most `min nCell (pagesize/2)` cells. -/

def acctWalkBtreeF (e : Env) (rec : Nat → Nat → Nat → AcctState → Option AcctState)
    (chainFuel pgno parent depth : Nat) (st : AcctState) : Option AcctState :=
  if pgno < 1 ∨ pgno > e.mxPage then some st
  else if st.types pgno ≠ PageType.unknown then some st
  else if depth > 50 then some st
  else if isPtrmapPage e pgno = true then some st
  else
    let st := if e.autoVacuum = 0 ∧ isPtrmapPosition e pgno = true ∧
        isValidPtrmapData e pgno = true
      then { st with ptrmapGhost := st.ptrmapGhost + 1 } else st
    let hdr := if pgno = 1 then 100 else 0
    let t := byteAt e pgno hdr
    if ¬(t = 2 ∨ t = 5 ∨ t = 10 ∨ t = 13) then some st
    else
      let ourType := if t = 2 then PageType.btreeInteriorIndex
        else if t = 5 then PageType.btreeInteriorTable
        else if t = 10 then PageType.btreeLeafIndex
        else PageType.btreeLeafTable
      acctWalkBtreeBody e rec chainFuel pgno hdr t depth
        (markPage e.mxPage st pgno ourType parent)

/-- `walkBtree` of pageacct.c with fuel counting nested calls and chain
iterations; `none` means the walk was still running. -/

def acctWalkBtree (e : Env) (fuel : Nat) : Nat → Nat → Nat → AcctState → Option AcctState :=
  Nat.rec (fun _ _ _ _ => none)
    (fun n ih pgno parent depth st => acctWalkBtreeF e ih n pgno parent depth st) fuel

/-- Body of `walkBtree` of freelistfind.c lines 283-406, parameterised by
the recursive call.  The same three guards as pageacct.c (lines 291-293),
then `markInUse` before the page is even read (line 295), the type-byte
check of lines 305-309, the interior child walk of lines 315-333
(including the always-true `cellStart >= 4` guard before the rightmost
child), and the table-leaf overflow scan of lines 336-403, which uses the
table formula with no fallback to `minLocal` and only follows chains of
table leaves. -/

def ffWalkBtreeF (e : Env) (rec : Nat → Nat → (Nat → Bool) → Option (Nat → Bool))
    (chainFuel pgno depth : Nat) (inUse : Nat → Bool) : Option (Nat → Bool) :=
  if pgno < 1 ∨ pgno > e.mxPage then some inUse
  else if inUse pgno = true then some inUse
  else if depth > 50 then some inUse
  else
    let inUse := markInUse e.mxPage inUse pgno
    let hdr := if pgno = 1 then 100 else 0
    let t := byteAt e pgno hdr
    if ¬(t = 2 ∨ t = 5 ∨ t = 10 ∨ t = 13) then some inUse
    else
      let cap := min (get16 e pgno (hdr + 3)) (e.pagesize / 2)
      do
        let inUse ← if t = 2 ∨ t = 5 then do
            let inUse ← optFold (fun s i =>
                let cellOffset := get16 e pgno (hdr + 12 + i * 2)
                if 4 ≤ cellOffset ∧ cellOffset < e.pagesize then
                  rec (get32 e pgno cellOffset) (depth + 1) s
                else some s)
              (List.range cap) inUse
            if 4 ≤ hdr + 12 then rec (get32 e pgno (hdr + 8)) (depth + 1) inUse
            else some inUse
          else some inUse
        let inUse ← if t = 13 ∨ t = 10 then
            optFold (fun s i =>
              let cellOffset := get16 e pgno (hdr + 8 + i * 2)
              if cellOffset < e.pagesize - 4 then
                let pv := decodeVarint (e.byte pgno) cellOffset
                let pos := if t = 13 then
                    cellOffset + pv.2 + (decodeVarint (e.byte pgno) (cellOffset + pv.2)).2
                  else cellOffset + pv.2
                if pv.1 ≤ 1073741824 then
                  if t = 13 then
                    let usable := e.pagesize - e.reserved
                    let maxLocal := usable - 35
                    let minLocal := (usable - 12) * 32 / 255 - 23
                    if pv.1 > maxLocal then
                      let localSize := minLocal + (pv.1 - minLocal) % (usable - 4)
                      if pos + localSize + 4 ≤ e.pagesize then
                        let ovfl := get32 e pgno (pos + localSize)
                        if 0 < ovfl ∧ ovfl ≤ e.mxPage then ffOvflChain e chainFuel ovfl s
                        else some s
                      else some s
                    else some s
                  else some s
                else some s
              else some s)
              (List.range cap) inUse
          else some inUse
        some inUse

/-- `walkBtree` of freelistfind.c with fuel counting nested calls and
chain iterations; `none` means the walk was still running. -/

def ffWalkBtree (e : Env) (fuel : Nat) : Nat → Nat → (Nat → Bool) → Option (Nat → Bool) :=
  Nat.rec (fun _ _ _ => none)
    (fun n ih pgno depth inUse => ffWalkBtreeF e ih n pgno depth inUse) fuel

/-! ### The account pipeline of pageacct.c main (claims C9 and C10) -/

/-- `walkAllBtrees` of pageacct.c lines 574-610: walk page 1, then every
root page the schema query yields — the collaborator-supplied list of
root pages is the `roots` parameter. -/

def acctWalkAllBtrees (e : Env) (fuel : Nat) (roots : List Nat)
    (st : AcctState) : Option AcctState := do
  let st ← acctWalkBtree e fuel 1 0 0 st
  optFold (fun st r => acctWalkBtree e fuel r 0 0 st) roots st

/-- `isAllZeros` of pageacct.c lines 697-702. -/

def isAllZeros (e : Env) (pgno len : Nat) : Bool :=
  (List.range len).all (fun off => decide (byteAt e pgno off = 0))

/-- One page of `classifyOrphanedPages`, pageacct.c lines 711-751:
unclassified pages are typed by their content — all zero bytes, a b-tree
type byte, or a plausible overflow next-pointer (note the strict
`nextPage < mxPage` bound of line 742); anything else stays unknown.
The `orphanCount` tally feeds only the report and is not modelled. -/

def classifyOrphanBody (e : Env) (st : AcctState) (i : Nat) : AcctState :=
  if st.types i ≠ PageType.unknown then st
  else if isAllZeros e i e.pagesize then
    { st with types := setAt st.types i PageType.orphanEmpty }
  else
    let t := byteAt e i 0
    let nextPage := get32 e i 0
    if t = 13 then { st with types := setAt st.types i PageType.orphanBtreeLeafTable }
    else if t = 10 then { st with types := setAt st.types i PageType.orphanBtreeLeafIndex }
    else if t = 5 then { st with types := setAt st.types i PageType.orphanBtreeInteriorTable }
    else if t = 2 then { st with types := setAt st.types i PageType.orphanBtreeInteriorIndex }
    else if t = 0 ∧ (nextPage = 0 ∨ (0 < nextPage ∧ nextPage < e.mxPage)) then
      { st with types := setAt st.types i PageType.orphanOverflow }
    else st

/-- `classifyOrphanedPages` of pageacct.c lines 707-752: scan pages
1 through mxPage. -/

def classifyOrphans (e : Env) (st : AcctState) : AcctState :=
  ((List.range e.mxPage).map (· + 1)).foldl (classifyOrphanBody e) st

/-- The four phases of pageacct.c main lines 1020-1036, in order:
freelist walk, ptrmap marking, all b-tree walks, orphan classification.
`none` when the freelist walk fails (main exits before reporting) or the
fuel ran out; `some st` is the classification the report is printed
from. -/

def accountPhases (e : Env) (roots : List Nat) (fuel : Nat) : Option AcctState :=
  match acctWalkFreelist e fuel with
  | .done st =>
    match acctWalkAllBtrees e fuel roots (markPtrmapPages e st) with
    | none => none
    | some st => some (classifyOrphans e st)
  | .abort _ => none
  | .spin _ => none

/-- The "Lock-byte" line of the accounting report (pageacct.c line 852):
the number of pages classified `PAGE_LOCKBYTE`. -/

def lockByteCount (e : Env) (st : AcctState) : Nat :=
  ((List.range e.mxPage).map (· + 1)).countP
    (fun p => decide (st.types p = PageType.lockbyte))

/-- No page is classified lock-byte. -/

def NoLock (st : AcctState) : Prop := ∀ p, st.types p ≠ PageType.lockbyte

/-- A 1-page database: page 1 is an empty table leaf, no freelist. -/

def envSinglePage : Env :=
  { pagesize := 512, reserved := 0, mxPage := 1, autoVacuum := 0, firstFreelist := 0,
    byte := fun pgno off => if pgno = 1 ∧ off = 100 then 13 else 0 }

/-- A 3-page database in which page 3 is both a freelist leaf (listed by
the trunk on page 2) and the rightmost child of the interior table
b-tree rooted at page 1. -/

def envFreelistBtreeOverlap : Env :=
  { pagesize := 512, reserved := 0, mxPage := 3, autoVacuum := 0, firstFreelist := 2,
    byte := fun pgno off =>
      if pgno = 1 ∧ off = 100 then 5
      else if pgno = 1 ∧ off = 111 then 3
      else if pgno = 2 ∧ off = 7 then 1
      else if pgno = 2 ∧ off = 11 then 3
      else 0 }
/-! ### Theorems settling the claims -/

/-- For a usable size of at least 47 bytes, `minLocal ≤ maxLocal`. -/
theorem minLocal_le_maxLocal (usable : Nat) (h : 47 ≤ usable) :
    (usable - 12) * 32 / 255 - 23 ≤ usable - 35 := by
  have h1 : (usable - 12) * 32 / 255 ≤ usable - 12 := by
    have := Nat.div_le_div_right (c := 255)
      (Nat.mul_le_mul_left (usable - 12) (by norm_num : 32 ≤ 255))
    simpa [Nat.mul_div_cancel_left] using this
  omega

/-- C1 counterexample: with a 1024-byte usable size and a payload of 2123
bytes (which exceeds `maxLocal = 989`), the surplus
`minLocal + (payload − minLocal) mod (U − 4) = 1103` itself exceeds
`maxLocal`, so the claimed rule requires a local length of
`minLocal = 103`; dumprow.c searchLeaf and tablewalk.c processLeafCell
nevertheless use 1103, so the claim is false at the cited code. -/
theorem c1_counterexample :
    dumprowTableLeafLocal 1024 2123 = 1103 ∧
    tablewalkTableLeafLocal 1024 2123 = 1103 ∧
    specTableLeafLocal 1024 2123 = 103 ∧
    2123 > 1024 - 35 ∧ 1103 > 1024 - 35 ∧
    dumprowTableLeafLocal 1024 2123 ≠ specTableLeafLocal 1024 2123 := by
  decide

/-- C1 (amended): for payloads exceeding `maxLocal`, pageacct.c computes
exactly the claimed split, with the fallback to `minLocal`; dumprow.c and
tablewalk.c compute `minLocal + (payload − minLocal) mod (U − 4)` with no
fallback, agreeing with the claimed split exactly when that value does not
exceed `maxLocal` and otherwise diverging from the claimed `minLocal`. -/
theorem c1_local_split (usable payload : Nat) (hU : 512 ≤ usable)
    (hP : payload > usable - 35) :
    acctTableLeafLocal usable payload = specTableLeafLocal usable payload ∧
    tablewalkTableLeafLocal usable payload = dumprowTableLeafLocal usable payload ∧
    specTableLeafLocal usable payload =
      (if dumprowTableLeafLocal usable payload ≤ usable - 35
       then dumprowTableLeafLocal usable payload
       else (usable - 12) * 32 / 255 - 23) := by
  have hml := minLocal_le_maxLocal usable (by omega)
  refine ⟨?_, ?_, ?_⟩ <;>
    simp only [acctTableLeafLocal, specTableLeafLocal, dumprowTableLeafLocal,
      tablewalkTableLeafLocal] <;>
    split_ifs <;> omega

/-- Witness for `c1_local_split` at usable size 1024 and payload 2123. -/
theorem c1_local_split_witness :
    acctTableLeafLocal 1024 2123 = specTableLeafLocal 1024 2123 ∧
    tablewalkTableLeafLocal 1024 2123 = dumprowTableLeafLocal 1024 2123 ∧
    specTableLeafLocal 1024 2123 =
      (if dumprowTableLeafLocal 1024 2123 ≤ 1024 - 35
       then dumprowTableLeafLocal 1024 2123
       else (1024 - 12) * 32 / 255 - 23) :=
  c1_local_split 1024 2123 (by decide) (by decide)

/-- C4 counterexample: walking the freelist of `envLeafOutOfRange`, the
walker meets the leaf page number 50 with `mxPage = 2`, yet the walk
completes (`isDone`) instead of aborting with an error; the out-of-range
leaf is silently ignored (it stays unclassified). -/
theorem c4_counterexample :
    (acctWalkFreelist envLeafOutOfRange 10).isDone = true ∧
    get32 envLeafOutOfRange 2 8 = 50 ∧
    50 > envLeafOutOfRange.mxPage ∧
    (acctWalkFreelist envLeafOutOfRange 10).state.types 50 = PageType.unknown := by
  decide

/-- C4 (amended): an out-of-range page number reached as a trunk aborts
the walk with an error (`readPage` fails before anything is marked), while
an out-of-range page number reached as a leaf is silently ignored:
`markPage` returns without marking and the walk continues. -/
theorem c4_range_check (e : Env) (fuel pgno : Nat) (visited : List Nat)
    (st : AcctState) (q : Nat) (t : PageType) (parent : Nat)
    (h0 : pgno ≠ 0) (h1 : pgno > e.mxPage) (h2 : pgno ∉ visited)
    (hq : q > e.mxPage) :
    acctFreelistLoop e (fuel + 1) pgno visited st = .abort st ∧
    markPage e.mxPage st q t parent = st := by
  constructor
  · simp only [acctFreelistLoop, if_neg h0, if_neg h2]
    simp [h1]
  · simp [markPage, hq]

/-- Witness for `c4_range_check` on `envLeafOutOfRange`, with page 50 both
as a hypothetical trunk and as the marked leaf. -/
theorem c4_range_check_witness :
    acctFreelistLoop envLeafOutOfRange 1 50 [] initAcctState = .abort initAcctState ∧
    markPage envLeafOutOfRange.mxPage initAcctState 50 PageType.freelistLeaf 2
      = initAcctState :=
  c4_range_check envLeafOutOfRange 0 50 [] initAcctState 50 PageType.freelistLeaf 2
    (by decide) (by decide) (by decide) (by decide)

/-- Appending one element per fold step just appends the mapped list. -/
theorem ck_leaf_fold (g : Nat → Nat × Bool × Nat) (n : Nat) (st : CkState) :
    (List.range n).foldl (fun st i => { st with entries := st.entries ++ [g i] }) st
      = { st with entries := st.entries ++ (List.range n).map g } := by
  induction n generalizing st with
  | zero => simp
  | succ n ih => rw [List.range_succ, List.foldl_append, ih]; simp

/-- Marking leaves that are distinct from the trunk, over a state whose
other pages are unknown or already freelist leaves, prints nothing: every
`markPage` in the leaf loop hits the no-conflict branch. -/
theorem acct_leaf_fold_diags (e : Env) (pgno : Nat) (l : List Nat) (st : AcctState)
    (hl : ∀ i ∈ l, get32 e pgno (8 + i * 4) ≠ pgno)
    (hinv : ∀ p, p ≠ pgno →
      st.types p = PageType.unknown ∨ st.types p = PageType.freelistLeaf) :
    (l.foldl
        (fun st i => markPage e.mxPage st (get32 e pgno (8 + i * 4))
          PageType.freelistLeaf pgno) st).diags = st.diags := by
  induction l generalizing st with
  | nil => rfl
  | cons i l ih =>
    simp only [List.foldl_cons]
    have hi := hl i (List.mem_cons_self i l)
    have hl2 : ∀ j ∈ l, get32 e pgno (8 + j * 4) ≠ pgno :=
      fun j hj => hl j (List.mem_cons_of_mem i hj)
    by_cases hr : get32 e pgno (8 + i * 4) < 1 ∨ get32 e pgno (8 + i * 4) > e.mxPage
    · have hmark : markPage e.mxPage st (get32 e pgno (8 + i * 4))
          PageType.freelistLeaf pgno = st := by
        simp only [markPage]; rw [if_pos hr]
      rw [hmark]
      exact ih st hl2 hinv
    · have hcond : ¬(st.types (get32 e pgno (8 + i * 4)) ≠ PageType.unknown ∧
          st.types (get32 e pgno (8 + i * 4)) ≠ PageType.freelistLeaf) := by
        rcases hinv _ hi with hty | hty <;> simp [hty]
      have hmark : markPage e.mxPage st (get32 e pgno (8 + i * 4))
          PageType.freelistLeaf pgno
          = { st with
              types := setAt st.types (get32 e pgno (8 + i * 4)) PageType.freelistLeaf,
              parents := setAt st.parents (get32 e pgno (8 + i * 4)) pgno } := by
        simp only [markPage]
        rw [if_neg hr]
        simp only [if_neg hcond]
      rw [hmark]
      refine ih _ hl2 ?_
      intro p hp
      by_cases hpq : p = get32 e pgno (8 + i * 4)
      · right; simp [setAt, hpq]
      · simpa [setAt, hpq] using hinv p hp

/-- C6 (amended): on a trunk whose stored leaf count exceeds
`(pagesize − 8)/4`, freelistck.c reports the invalid count, records
exactly `maxLeaves` leaf page numbers, and continues the loop at
`nextTrunk`; pageacct.c clamps and continues identically but prints no
report (its diagnostics are unchanged). -/
theorem c6_clamp_report (e : Env) (fuel pgno : Nat) (visited : List Nat)
    (stck : CkState) (st : AcctState)
    (h1 : 1 ≤ pgno) (h2 : pgno ≤ e.mxPage) (h3 : pgno ∉ visited)
    (h4 : visited.length < 10000)
    (h5 : get32 e pgno 4 > (e.pagesize - 8) / 4)
    (hall : ∀ p, st.types p = PageType.unknown)
    (hnl : ∀ i < (e.pagesize - 8) / 4, get32 e pgno (8 + i * 4) ≠ pgno) :
    ckFreelistLoop e (fuel + 1) pgno visited stck =
      ckFreelistLoop e fuel (get32 e pgno 0) (visited ++ [pgno]) (ckFlBody e pgno stck) ∧
    ckFlBody e pgno stck = { stck with
        entries := stck.entries ++ [(pgno, true, 0)] ++
          (List.range ((e.pagesize - 8) / 4)).map
            (fun i => (get32 e pgno (8 + i * 4), false, pgno)),
        diags := stck.diags ++ [Diag.invalidLeafCount pgno] } ∧
    acctFreelistLoop e (fuel + 1) pgno visited st =
      acctFreelistLoop e fuel (get32 e pgno 0) (visited ++ [pgno]) (acctFlBody e pgno st) ∧
    (acctFlBody e pgno st).diags = st.diags := by
  have h0 : pgno ≠ 0 := by omega
  have hrange : ¬(pgno < 1 ∨ pgno > e.mxPage) := by omega
  refine ⟨?_, ?_, ?_, ?_⟩
  · simp only [ckFreelistLoop]
    rw [if_neg h0, if_neg h3, if_pos h4, if_neg hrange]
  · simp only [ckFlBody]
    rw [if_pos h5, ck_leaf_fold]
  · simp only [acctFreelistLoop]
    rw [if_neg h0, if_neg h3, if_pos h4, if_neg hrange]
  · simp only [acctFlBody]
    rw [if_pos h5]
    have hcond : ¬(st.types pgno ≠ PageType.unknown ∧
        st.types pgno ≠ PageType.freelistTrunk) := by
      simp [hall pgno]
    have hmark : markPage e.mxPage st pgno PageType.freelistTrunk 0
        = { st with
            types := setAt st.types pgno PageType.freelistTrunk,
            parents := setAt st.parents pgno 0 } := by
      simp only [markPage]
      rw [if_neg hrange]
      simp only [if_neg hcond]
    rw [hmark]
    exact acct_leaf_fold_diags e pgno _ _
      (fun i hi => hnl i (by simpa using hi))
      (fun p hp => by left; simp [setAt, hp, hall p])

/-- C6 counterexample: pageacct.c's walker meets the invalid leaf count
200 (maximum 126), clamps it and finishes the walk, but reports nothing:
its diagnostic list stays empty, so the claim that the walker reports the
invalid count is false at pageacct.c walkFreelist lines 283-301. -/
theorem c6_counterexample :
    (acctWalkFreelist envClampSilent 10).isDone = true ∧
    get32 envClampSilent 2 4 = 200 ∧
    200 > (envClampSilent.pagesize - 8) / 4 ∧
    (acctWalkFreelist envClampSilent 10).state.diags = [] := by
  decide

/-- Witness for `c6_clamp_report` on `envClampSilent` at trunk page 2. -/
theorem c6_clamp_report_witness :
    get32 envClampSilent 2 4 = 200 ∧
    (ckFlBody envClampSilent 2 initCkState = { initCkState with
        entries := initCkState.entries ++ [(2, true, 0)] ++
          (List.range ((envClampSilent.pagesize - 8) / 4)).map
            (fun i => (get32 envClampSilent 2 (8 + i * 4), false, 2)),
        diags := initCkState.diags ++ [Diag.invalidLeafCount 2] } ∧
      (acctFlBody envClampSilent 2 initAcctState).diags = initAcctState.diags) := by
  have h := c6_clamp_report envClampSilent 0 2 [] initCkState initAcctState
    (by decide) (by decide) (by decide) (by decide) (by decide)
    (fun p => rfl) (by decide)
  exact ⟨by decide, h.2.1, h.2.2.2⟩

/-- C5 counterexample: a stored page-size value of 0 (both header bytes
zero) decodes to 0 in dumprow.c and to 65536 in freelistck.c's second
readHeader, not to the claimed 1024 (which only pageacct.c produces); and
the stored value 4098 (bytes 16, 2) is not taken unchanged by
freelistck.c's second readHeader, which turns it into 135168. -/
theorem c5_counterexample :
    dumprowPageSize 0 0 = 0 ∧
    freelistck2PageSize 0 0 = 65536 ∧
    acctPageSize 0 0 = 1024 ∧
    freelistck2PageSize 16 2 = 135168 ∧
    dumprowPageSize 0 0 ≠ 1024 := by
  decide

/-- C5 (amended): for header bytes `b16 b17`, with stored value
`v = b16·256 + b17`: pageacct.c decodes 1 ⇒ 65536, 0 ⇒ 1024 and leaves
any other value unchanged; dumprow.c decodes only 1 ⇒ 65536, leaving 0
as 0; and freelistck.c's second readHeader (which computes
`(b16<<8) | (b17<<16)`) agrees with pageacct.c exactly when `b17 = 0`
with a nonzero stored value, or the stored value is exactly 1. -/
theorem c5_pagesize_decode (b16 b17 : Nat) (h16 : b16 < 256) (h17 : b17 < 256) :
    acctPageSize b16 b17 =
      (if b16 * 256 + b17 = 1 then 65536
       else if b16 * 256 + b17 = 0 then 1024 else b16 * 256 + b17) ∧
    dumprowPageSize b16 b17 =
      (if b16 * 256 + b17 = 1 then 65536 else b16 * 256 + b17) ∧
    (freelistck2PageSize b16 b17 = acctPageSize b16 b17 ↔
      (b17 = 0 ∧ b16 ≠ 0) ∨ (b16 = 0 ∧ b17 = 1)) := by
  refine ⟨?_, ?_, ?_⟩ <;>
    simp only [acctPageSize, dumprowPageSize, freelistck2PageSize,
      Nat.mod_eq_of_lt h16, Nat.mod_eq_of_lt h17] <;>
    split_ifs <;> simp_all <;> omega

/-- Witness for `c5_pagesize_decode` at the stored value 0. -/
theorem c5_pagesize_decode_witness :
    acctPageSize 0 0 =
      (if 0 * 256 + 0 = 1 then 65536
       else if 0 * 256 + 0 = 0 then 1024 else 0 * 256 + 0) ∧
    dumprowPageSize 0 0 = (if 0 * 256 + 0 = 1 then 65536 else 0 * 256 + 0) ∧
    (freelistck2PageSize 0 0 = acctPageSize 0 0 ↔
      (0 = 0 ∧ 0 ≠ 0) ∨ (0 = 0 ∧ 0 = 1)) :=
  c5_pagesize_decode 0 0 (by decide) (by decide)

/-- The early-return entry scan computes the conjunction of the
entrywise checks together with the existence of a non-zero entry. -/
theorem ptrmapScan_eq (e : Env) (pgno : Nat) : ∀ k i acc,
    ptrmapScan e pgno k i acc =
      ((List.range' i k).all (ptrmapEntryOk e pgno) &&
        (acc || (List.range' i k).any (fun j => decide (byteAt e pgno (j * 5) ≠ 0)))) := by
  intro k
  induction k with
  | zero => intro i acc; simp [ptrmapScan, List.range']
  | succ k ih =>
    intro i acc
    simp only [ptrmapScan]
    by_cases h1 : byteAt e pgno (i * 5) > 5
    · rw [if_pos h1]
      have hok : ptrmapEntryOk e pgno i = false := by
        simp [ptrmapEntryOk]; omega
      simp [List.range'_succ, hok]
    · rw [if_neg h1]
      by_cases h2 : byteAt e pgno (i * 5) ≠ 0
      · rw [if_pos h2]
        by_cases h3 : get32 e pgno (i * 5 + 1) > e.mxPage
        · rw [if_pos h3]
          have hok : ptrmapEntryOk e pgno i = false := by
            simp [ptrmapEntryOk]; omega
          simp [List.range'_succ, hok]
        · rw [if_neg h3]
          have hok : ptrmapEntryOk e pgno i = true := by
            simp [ptrmapEntryOk]; omega
          simp [List.range'_succ, hok, ih, h2]
      · rw [if_neg h2]
        have h0 : byteAt e pgno (i * 5) = 0 := by omega
        have hok : ptrmapEntryOk e pgno i = true := by
          simp [ptrmapEntryOk, h0]
        simp [List.range'_succ, hok, ih, h0]

/-- Each candidate-iteration body either leaves a page's type alone or
sets it to `ptrmap`, and only when the candidate page's data validates. -/
theorem ptrmapMarkBody_types (e : Env) (pgno : Nat) (st : AcctState) (p : Nat) :
    (ptrmapMarkBody e pgno st).types p = st.types p ∨
      ((ptrmapMarkBody e pgno st).types p = PageType.ptrmap ∧
        isValidPtrmapData e p = true) := by
  unfold ptrmapMarkBody
  by_cases h1 : st.types pgno ≠ PageType.unknown
  · rw [if_pos h1]; split_ifs <;> left <;> rfl
  · rw [if_neg h1]
    by_cases h2 : isValidPtrmapData e pgno = true
    · rw [if_pos h2]
      by_cases hr : pgno < 1 ∨ pgno > e.mxPage
      · have hmark : markPage e.mxPage st pgno PageType.ptrmap 0 = st := by
          simp only [markPage]; rw [if_pos hr]
        rw [hmark]; split_ifs <;> left <;> rfl
      · have hcond : ¬(st.types pgno ≠ PageType.unknown ∧
            st.types pgno ≠ PageType.ptrmap) := by
          intro hc; exact h1 hc.1
        have hmark : markPage e.mxPage st pgno PageType.ptrmap 0
            = { st with types := setAt st.types pgno PageType.ptrmap,
                        parents := setAt st.parents pgno 0 } := by
          simp only [markPage]; rw [if_neg hr]; simp only [if_neg hcond]
        rw [hmark]
        by_cases hp : p = pgno
        · right
          subst hp
          constructor
          · split_ifs <;> simp [setAt]
          · exact h2
        · left; split_ifs <;> simp [setAt, hp]
    · rw [if_neg h2]; split_ifs <;> left <;> rfl

/-- Across the whole candidate loop, a page's type is either untouched or
set to `ptrmap`, the latter only for pages whose data validates. -/
theorem ptrmapMarkLoop_types (e : Env) : ∀ (k pgno : Nat) (st : AcctState) (p : Nat),
    (ptrmapMarkLoop e k pgno st).types p = st.types p ∨
      ((ptrmapMarkLoop e k pgno st).types p = PageType.ptrmap ∧
        isValidPtrmapData e p = true) := by
  intro k
  induction k with
  | zero => intro pgno st p; left; rfl
  | succ k ih =>
    intro pgno st p
    simp only [ptrmapMarkLoop]
    by_cases h : pgno > e.mxPage
    · rw [if_pos h]; left; rfl
    · rw [if_neg h]
      rcases ih (pgno + ((e.pagesize - e.reserved) / 5 + 1))
          (ptrmapMarkBody e pgno st) p with h1 | h1
      · rw [h1]; exact ptrmapMarkBody_types e pgno st p
      · right; exact h1

/-- C7 (amended): a candidate page validates as a ptrmap page if and only
if every 5-byte entry has a type byte in {0,...,5}, every non-zero entry
references a parent of at most `max_page` — parent 0 is accepted, unlike
the claimed `1 .. max_page` — and at least one entry is non-zero; and
`markPtrmapPages` classifies a page as pointer-map only if its data
passes this validation. -/
theorem c7_ptrmap_validation (e : Env) (st : AcctState) :
    (∀ pgno, isValidPtrmapData e pgno =
      (ptrmapEntriesOk e pgno && ptrmapHasNonzero e pgno)) ∧
    (∀ p, (markPtrmapPages e st).types p = st.types p ∨
      ((markPtrmapPages e st).types p = PageType.ptrmap ∧
        isValidPtrmapData e p = true)) := by
  constructor
  · intro pgno
    rw [isValidPtrmapData, ptrmapScan_eq, ptrmapEntriesOk, ptrmapHasNonzero,
      List.range_eq_range']
    simp
  · intro p
    exact ptrmapMarkLoop_types e (e.mxPage + 1)
      ((e.pagesize - e.reserved) / 5 + 1) { st with ptrmapGhost := 0, ptrmapMissing := 0 } p

/-- C7 counterexample: page 3 of `envPtrmapParentZero` validates as a
ptrmap page under pageacct.c's `isValidPtrmapData` (its one non-zero
entry has parent 0, which the code accepts for root pages), while the
claimed criterion — every non-zero entry references a parent in
`1 .. max_page` — rejects it; the claimed equivalence is false. -/
theorem c7_counterexample :
    isValidPtrmapData envPtrmapParentZero 3 = true ∧
    specPtrmapCriterion envPtrmapParentZero 3 = false := by
  decide

/-- Setting a listed unknown page to a non-unknown type strictly lowers
the count of unknown pages over the list. -/
theorem countP_setAt_lt (l : List Nat) (f : Nat → PageType) (a : Nat) (t : PageType)
    (ha : a ∈ l) (hf : f a = PageType.unknown) (ht : t ≠ PageType.unknown) :
    l.countP (fun p => decide (setAt f a t p = PageType.unknown)) <
      l.countP (fun p => decide (f p = PageType.unknown)) := by
  have hmono : ∀ (l2 : List Nat),
      l2.countP (fun p => decide (setAt f a t p = PageType.unknown)) ≤
        l2.countP (fun p => decide (f p = PageType.unknown)) := by
    intro l2
    apply List.countP_mono_left
    intro p _ hp
    by_cases hpa : p = a
    · exfalso
      rw [decide_eq_true_iff] at hp
      rw [show setAt f a t p = t by simp [setAt, hpa]] at hp
      exact ht hp
    · rw [decide_eq_true_iff] at hp ⊢
      rwa [show setAt f a t p = f p by simp [setAt, hpa]] at hp
  induction l with
  | nil => cases ha
  | cons b l ih =>
    simp only [List.countP_cons]
    by_cases hba : b = a
    · have h1 : decide (setAt f a t b = PageType.unknown) = false := by
        subst hba; simp [setAt, ht]
      have h2 : decide (f b = PageType.unknown) = true := by
        subst hba; simp [hf]
      have h3 := hmono l
      simp only [h1, h2, if_true, if_false]
      simp only [Bool.false_eq_true, if_false]
      omega
    · rcases List.mem_cons.mp ha with hb | hb
      · exact absurd hb.symm hba
      · have h3 := ih hb
        have h4 : decide (setAt f a t b = PageType.unknown)
            = decide (f b = PageType.unknown) := by
          simp [setAt, hba]
        simp only [h4]
        omega

/-- Marking an in-range unknown page strictly lowers `countUnknown`. -/
theorem countUnknown_markPage_lt (mxPage : Nat) (st : AcctState) (pgno : Nat)
    (t : PageType) (parent : Nat)
    (h1 : 1 ≤ pgno) (h2 : pgno ≤ mxPage) (h3 : st.types pgno = PageType.unknown)
    (ht : t ≠ PageType.unknown) :
    countUnknown mxPage (markPage mxPage st pgno t parent).types <
      countUnknown mxPage st.types := by
  have hr : ¬(pgno < 1 ∨ pgno > mxPage) := by omega
  have hcond : ¬(st.types pgno ≠ PageType.unknown ∧ st.types pgno ≠ t) := by
    intro hc; exact hc.1 h3
  have hmark : (markPage mxPage st pgno t parent).types = setAt st.types pgno t := by
    simp only [markPage]; rw [if_neg hr]; simp only [if_neg hcond]
  rw [countUnknown, countUnknown, hmark]
  apply countP_setAt_lt _ _ _ _ _ h3 ht
  simp only [List.mem_map, List.mem_range]
  exact ⟨pgno - 1, by omega, by omega⟩

/-- C3 (amended): pageacct.c's overflow-chain loop halts exactly when the
next pointer is 0 or out of range or the next page is already classified,
and since every iteration classifies a previously-unknown page, the loop
terminates on every input — any fuel beyond the current number of
unclassified pages is enough, cyclic chains included.  (freelistfind.c's
and pageowner.c's chain loops lack the already-seen check; see the
counterexample.) -/
theorem c3_chain_termination (e : Env) (parent : Nat) (fuel ovfl : Nat)
    (st : AcctState) (hf : countUnknown e.mxPage st.types < fuel) :
    (acctOvflChain e parent fuel ovfl st).isSome = true := by
  induction fuel generalizing ovfl st with
  | zero => omega
  | succ fuel ih =>
    simp only [acctOvflChain]
    by_cases h1 : ovfl = 0 ∨ ovfl > e.mxPage
    · rw [if_pos h1]; rfl
    · rw [if_neg h1]
      by_cases h2 : st.types ovfl ≠ PageType.unknown
      · rw [if_pos h2]; rfl
      · rw [if_neg h2]
        apply ih
        have := countUnknown_markPage_lt e.mxPage st ovfl PageType.overflow parent
          (by omega) (by omega) (by simpa using h2) (by simp)
        omega

set_option maxRecDepth 4000 in
/-- C3 counterexample: on the cyclic chain of `envOvflCycle`, both pages
are marked after the first two iterations, yet freelistfind.c's chain
loop is still running after 500 iterations — it does not halt when the
next page is already seen, so the claimed halting condition (and with it
termination on cyclic chains) is false at freelistfind.c walkBtree lines
390-396. -/
theorem c3_counterexample :
    (ffOvflChain envOvflCycle 500 1 (fun _ => false)).isNone = true ∧
    get32 envOvflCycle 1 0 = 2 ∧ get32 envOvflCycle 2 0 = 1 := by
  decide

/-- Witness for `c3_chain_termination`: on the same cyclic chain,
pageacct.c's loop finishes within 3 iterations, its two unknown pages
being classified once each. -/
theorem c3_chain_termination_witness :
    (acctOvflChain envOvflCycle 7 3 1 initAcctState).isSome = true :=
  c3_chain_termination envOvflCycle 7 3 1 initAcctState (by decide)

/-- An invariant preserved by every step of `optFold` is preserved by the
whole fold. -/
theorem optFold_inv {α σ : Type} (P : σ → Prop) (f : σ → α → Option σ)
    (hf : ∀ st a st', f st a = some st' → P st → P st') :
    ∀ (l : List α) (st st' : σ), optFold f l st = some st' → P st → P st' := by
  intro l
  induction l with
  | nil =>
    intro st st' h hp
    simp only [optFold] at h
    cases h
    exact hp
  | cons a l ih =>
    intro st st' h hp
    simp only [optFold] at h
    cases hfa : f st a with
    | none => rw [hfa] at h; cases h
    | some st2 =>
      rw [hfa] at h
      exact ih st2 st' h (hf st a st2 hfa hp)

/-- C8: on the well-formed table leaf of `dumpCtxLeaf`, whose cell-pointer
array begins at `hdr + 8` as the claim states, tablewalk.c (which reads
the array there) finds rowid 7, while dumprow.c's searchLeaf — which
reads the i-th cell pointer at `hdr + 8 + 12 + 2·i` (pageowner.c's
table-leaf path does the same) — reads the zero bytes at offset 20,
rejects them as a cell offset, and misses the rowid. -/
theorem c8_leaf_cell_array :
    tablewalkProcessLeafPage dumpCtxLeaf 2 = true ∧
    dumprowSearchLeaf dumpCtxLeaf 2 0 = false ∧
    get16d dumpCtxLeaf 2 8 = 400 ∧
    get16d dumpCtxLeaf 2 20 = 0 ∧
    (decodeVarint (dumpCtxLeaf.byte 2) (400 + (decodeVarint (dumpCtxLeaf.byte 2) 400).2)).1
      = 7 := by
  decide

set_option maxRecDepth 8000 in
/-- C2 counterexample: dumprow.c's walkBtree guards only on the
found-flag and the page range; on the pointer cycle of `dumpCtxCycle` it
is still descending after 60 nested calls, so its recursion depth is not
bounded by 50 and a corrupt file with a pointer cycle recurses without
bound — the claimed guard set does not exist in dumprow.c. -/
theorem c2_counterexample :
    (dumprowWalk dumpCtxCycle 60 2 false).isNone = true ∧
    dumpCtxCycle.byte 2 0 = 5 ∧ dumpCtxCycle.byte 3 0 = 5 ∧
    get32d dumpCtxCycle 2 8 = 3 ∧ get32d dumpCtxCycle 3 8 = 2 := by
  decide

/-- C2 (amended): for pageacct.c's and freelistfind.c's walkers, a call
with an out-of-range page number, an already classified (or in-use) page,
or a depth beyond 50 returns immediately with the state untouched, so no
page is descended into twice and recursion depth is bounded; dumprow.c's
walkBtree has no such guards (see the counterexample). -/
theorem c2_walk_guards (e : Env) (n pgno parent depth : Nat) (st : AcctState)
    (inUse : Nat → Bool)
    (hacct : pgno < 1 ∨ pgno > e.mxPage ∨ st.types pgno ≠ PageType.unknown ∨ depth > 50)
    (hff : pgno < 1 ∨ pgno > e.mxPage ∨ inUse pgno = true ∨ depth > 50) :
    acctWalkBtree e (n + 1) pgno parent depth st = some st ∧
    ffWalkBtree e (n + 1) pgno depth inUse = some inUse := by
  constructor
  · show acctWalkBtreeF e (acctWalkBtree e n) n pgno parent depth st = some st
    by_cases h1 : pgno < 1 ∨ pgno > e.mxPage
    · simp only [acctWalkBtreeF]; rw [if_pos h1]
    · by_cases h2 : st.types pgno ≠ PageType.unknown
      · simp only [acctWalkBtreeF]; rw [if_neg h1, if_pos h2]
      · have h3 : depth > 50 := by tauto
        simp only [acctWalkBtreeF]; rw [if_neg h1, if_neg h2, if_pos h3]
  · show ffWalkBtreeF e (ffWalkBtree e n) n pgno depth inUse = some inUse
    by_cases h1 : pgno < 1 ∨ pgno > e.mxPage
    · simp only [ffWalkBtreeF]; rw [if_pos h1]
    · by_cases h2 : inUse pgno = true
      · simp only [ffWalkBtreeF]; rw [if_neg h1, if_pos h2]
      · have h3 : depth > 50 := by tauto
        simp only [ffWalkBtreeF]; rw [if_neg h1, if_neg h2, if_pos h3]

/-- Witness for `c2_walk_guards`: a call at depth 51 on `dumpCtxCycle`'s
byte image returns immediately in both walkers. -/
theorem c2_walk_guards_witness :
    acctWalkBtree envOvflCycle 5 2 0 51 initAcctState = some initAcctState ∧
    ffWalkBtree envOvflCycle 5 2 51 (fun _ => false) = some (fun _ => false) :=
  c2_walk_guards envOvflCycle 4 2 0 51 initAcctState (fun _ => false)
    (by right; right; right; omega) (by right; right; right; omega)

/-- `markPage` either leaves a page's type alone or writes the given
type. -/
theorem markPage_types_cases (mx : Nat) (st : AcctState) (pgno : Nat) (t : PageType)
    (par p : Nat) :
    (markPage mx st pgno t par).types p = st.types p ∨
      (markPage mx st pgno t par).types p = t := by
  unfold markPage
  split_ifs
  · left; rfl
  · by_cases hp : p = pgno
    · right; simp [setAt, hp]
    · left; simp [setAt, hp]
  · by_cases hp : p = pgno
    · right; simp [setAt, hp]
    · left; simp [setAt, hp]

/-- `markPage` with a non-lock-byte type preserves `NoLock`. -/
theorem markPage_noLock (mx : Nat) (st : AcctState) (pgno : Nat) (t : PageType)
    (par : Nat) (ht : t ≠ PageType.lockbyte) (h : NoLock st) :
    NoLock (markPage mx st pgno t par) := by
  intro p
  rcases markPage_types_cases mx st pgno t par p with hc | hc <;> rw [hc]
  · exact h p
  · exact ht

/-- The overflow-chain loop preserves `NoLock`. -/
theorem acctOvflChain_noLock (e : Env) (parent : Nat) :
    ∀ fuel ovfl st st', acctOvflChain e parent fuel ovfl st = some st' →
      NoLock st → NoLock st' := by
  intro fuel
  induction fuel with
  | zero => intro ovfl st st' h; simp [acctOvflChain] at h
  | succ fuel ih =>
    intro ovfl st st' h hp
    simp only [acctOvflChain] at h
    split at h
    · cases h; exact hp
    · split at h
      · cases h; exact hp
      · exact ih _ _ _ h (markPage_noLock _ _ _ _ _ (by simp) hp)

/-- One interior-cell step preserves `NoLock` whenever the recursive
call does. -/
theorem acctChildStep_noLock (e : Env)
    (rec : Nat → Nat → Nat → AcctState → Option AcctState)
    (hrec : ∀ p pa d st st', rec p pa d st = some st' → NoLock st → NoLock st')
    (pgno hdr depth : Nat) (st : AcctState) (i : Nat) (st' : AcctState)
    (h : acctChildStep e rec pgno hdr depth st i = some st') (hp : NoLock st) :
    NoLock st' := by
  simp only [acctChildStep] at h
  split at h
  · exact hrec _ _ _ _ _ h hp
  · cases h; exact hp

/-- One interior-index overflow step preserves `NoLock`. -/
theorem acctIdxOvflStep_noLock (e : Env) (chainFuel pgno hdr : Nat)
    (st : AcctState) (i : Nat) (st' : AcctState)
    (h : acctIdxOvflStep e chainFuel pgno hdr st i = some st') (hp : NoLock st) :
    NoLock st' := by
  simp only [acctIdxOvflStep] at h
  repeat' split at h
  all_goals first
    | (cases h; exact hp)
    | exact acctOvflChain_noLock _ _ _ _ _ _ h hp

/-- One leaf overflow step preserves `NoLock`. -/
theorem acctLeafOvflStep_noLock (e : Env) (chainFuel pgno hdr t : Nat)
    (st : AcctState) (i : Nat) (st' : AcctState)
    (h : acctLeafOvflStep e chainFuel pgno hdr t st i = some st') (hp : NoLock st) :
    NoLock st' := by
  simp only [acctLeafOvflStep] at h
  repeat' split at h
  all_goals first
    | (cases h; exact hp)
    | exact acctOvflChain_noLock _ _ _ _ _ _ h hp

/-- The cell loops preserve `NoLock` whenever the recursive call does. -/
theorem acctWalkBtreeBody_noLock (e : Env)
    (rec : Nat → Nat → Nat → AcctState → Option AcctState)
    (hrec : ∀ p pa d st st', rec p pa d st = some st' → NoLock st → NoLock st')
    (cf pgno hdr t depth : Nat) (st st' : AcctState)
    (h : acctWalkBtreeBody e rec cf pgno hdr t depth st = some st') (hp : NoLock st) :
    NoLock st' := by
  simp only [acctWalkBtreeBody] at h
  rcases Option.bind_eq_some.mp h with ⟨st1, h1, h⟩
  rcases Option.bind_eq_some.mp h with ⟨st2, h2, h⟩
  have hst1 : NoLock st1 := by
    split at h1
    · rcases Option.bind_eq_some.mp h1 with ⟨st0, h0, h1⟩
      have hst0 : NoLock st0 := by
        refine optFold_inv NoLock _ ?_ _ _ _ h0 hp
        intro s a s' hs hps
        exact acctChildStep_noLock e rec hrec _ _ _ _ _ _ hs hps
      exact hrec _ _ _ _ _ h1 hst0
    · cases h1; exact hp
  have hst2 : NoLock st2 := by
    split at h2
    · refine optFold_inv NoLock _ ?_ _ _ _ h2 hst1
      intro s a s' hs hps
      exact acctIdxOvflStep_noLock e _ _ _ _ _ _ hs hps
    · cases h2; exact hst1
  split at h
  · refine optFold_inv NoLock _ ?_ _ _ _ h hst2
    intro s a s' hs hps
    exact acctLeafOvflStep_noLock e _ _ _ _ _ _ _ hs hps
  · cases h; exact hst2

/-- One walker body preserves `NoLock` whenever the recursive call
does. -/
theorem acctWalkBtreeF_noLock (e : Env)
    (rec : Nat → Nat → Nat → AcctState → Option AcctState)
    (hrec : ∀ p pa d st st', rec p pa d st = some st' → NoLock st → NoLock st')
    (cf pgno parent depth : Nat) (st st' : AcctState)
    (h : acctWalkBtreeF e rec cf pgno parent depth st = some st') (hp : NoLock st) :
    NoLock st' := by
  simp only [acctWalkBtreeF] at h
  split at h
  · cases h; exact hp
  split at h
  · cases h; exact hp
  split at h
  · cases h; exact hp
  split at h
  · cases h; exact hp
  have hghost : NoLock (if e.autoVacuum = 0 ∧ isPtrmapPosition e pgno = true ∧
      isValidPtrmapData e pgno = true
    then { st with ptrmapGhost := st.ptrmapGhost + 1 } else st) := by
    intro p
    split
    · exact hp p
    · exact hp p
  split at h
  all_goals split at h
  all_goals first
    | (cases h; exact hghost)
    | (refine acctWalkBtreeBody_noLock e rec hrec _ _ _ _ _ _ _ h ?_
       apply markPage_noLock
       · split_ifs <;> simp
       · exact hghost)

/-- The whole b-tree walk preserves `NoLock`. -/
theorem acctWalkBtree_noLock (e : Env) : ∀ fuel pgno parent depth st st',
    acctWalkBtree e fuel pgno parent depth st = some st' → NoLock st → NoLock st' := by
  intro fuel
  induction fuel with
  | zero => intro _ _ _ _ _ h; exact Option.noConfusion h
  | succ fuel ih =>
    intro pgno parent depth st st' h hp
    exact acctWalkBtreeF_noLock e (acctWalkBtree e fuel)
      (fun p pa d s s' hh hpp => ih p pa d s s' hh hpp)
      fuel pgno parent depth st st' h hp

/-- An invariant preserved by every step of `List.foldl` is preserved by
the whole fold. -/
theorem foldl_inv {α σ : Type} (P : σ → Prop) (f : σ → α → σ)
    (hf : ∀ st a, P st → P (f st a)) :
    ∀ (l : List α) (st : σ), P st → P (l.foldl f st) := by
  intro l
  induction l with
  | nil => intro st h; exact h
  | cons a l ih => intro st h; exact ih _ (hf st a h)

/-- One freelist trunk body preserves `NoLock`. -/
theorem acctFlBody_noLock (e : Env) (pgno : Nat) (st : AcctState) (hp : NoLock st) :
    NoLock (acctFlBody e pgno st) := by
  unfold acctFlBody
  exact foldl_inv NoLock _
    (fun st i h => markPage_noLock _ _ _ _ _ (by simp) h) _ _
    (markPage_noLock _ _ _ _ _ (by simp) hp)

/-- The freelist walk preserves `NoLock` in every outcome. -/
theorem acctFreelistLoop_noLock (e : Env) : ∀ fuel pgno visited st, NoLock st →
    NoLock (acctFreelistLoop e fuel pgno visited st).state := by
  intro fuel
  induction fuel with
  | zero => intro _ _ _ hp; exact hp
  | succ fuel ih =>
    intro pgno visited st hp
    simp only [acctFreelistLoop]
    split
    · exact hp
    · split
      · exact hp
      · split
        · exact hp
        · exact ih _ _ _ (acctFlBody_noLock e _ _ hp)

/-- Marking ptrmap pages preserves `NoLock`. -/
theorem markPtrmapPages_noLock (e : Env) (st : AcctState) (hp : NoLock st) :
    NoLock (markPtrmapPages e st) := by
  intro p
  rcases ptrmapMarkLoop_types e (e.mxPage + 1) ((e.pagesize - e.reserved) / 5 + 1)
      { st with ptrmapGhost := 0, ptrmapMissing := 0 } p with hc | hc
  · show (ptrmapMarkLoop e (e.mxPage + 1) ((e.pagesize - e.reserved) / 5 + 1)
      { st with ptrmapGhost := 0, ptrmapMissing := 0 }).types p ≠ PageType.lockbyte
    rw [hc]; exact hp p
  · show (ptrmapMarkLoop e (e.mxPage + 1) ((e.pagesize - e.reserved) / 5 + 1)
      { st with ptrmapGhost := 0, ptrmapMissing := 0 }).types p ≠ PageType.lockbyte
    rw [hc.1]; simp

/-- The orphan classifier preserves `NoLock`. -/
theorem classifyOrphanBody_noLock (e : Env) (st : AcctState) (i : Nat)
    (hp : NoLock st) : NoLock (classifyOrphanBody e st i) := by
  have hset : ∀ (t : PageType), t ≠ PageType.lockbyte →
      NoLock { st with types := setAt st.types i t } := by
    intro t ht p
    by_cases hpi : p = i
    · simpa [setAt, hpi] using ht
    · simpa [setAt, hpi] using hp p
  simp only [classifyOrphanBody]
  split_ifs <;> first
    | exact hp
    | exact hset PageType.orphanEmpty (by simp)
    | exact hset PageType.orphanBtreeLeafTable (by simp)
    | exact hset PageType.orphanBtreeLeafIndex (by simp)
    | exact hset PageType.orphanBtreeInteriorTable (by simp)
    | exact hset PageType.orphanBtreeInteriorIndex (by simp)
    | exact hset PageType.orphanOverflow (by simp)

/-- `accountPhases` never classifies any page as lock-byte: C10. -/
theorem accountPhases_noLock (e : Env) (roots : List Nat) (fuel : Nat)
    (st' : AcctState) (h : accountPhases e roots fuel = some st') : NoLock st' := by
  unfold accountPhases at h
  cases hfl : acctWalkFreelist e fuel with
  | done st =>
    simp only [hfl] at h
    have hst : NoLock st := by
      have := acctFreelistLoop_noLock e fuel e.firstFreelist [] initAcctState
        (fun p => by simp [initAcctState])
      rw [show acctFreelistLoop e fuel e.firstFreelist [] initAcctState
          = acctWalkFreelist e fuel from rfl, hfl] at this
      exact this
    cases hbt : acctWalkAllBtrees e fuel roots (markPtrmapPages e st) with
    | none => simp only [hbt] at h; exact Option.noConfusion h
    | some st2 =>
      simp only [hbt] at h
      cases h
      have hst2 : NoLock st2 := by
        unfold acctWalkAllBtrees at hbt
        rcases Option.bind_eq_some.mp hbt with ⟨st1, h1, h2⟩
        have hst1 : NoLock st1 :=
          acctWalkBtree_noLock e fuel 1 0 0 _ _ h1 (markPtrmapPages_noLock e st hst)
        exact optFold_inv NoLock _
          (fun s a s' hs hps => acctWalkBtree_noLock e fuel a 0 0 s s' hs hps)
          _ _ _ h2 hst1
      exact foldl_inv NoLock _ (fun s a hps => classifyOrphanBody_noLock e s a hps) _ _ hst2
  | abort st => simp only [hfl] at h; exact Option.noConfusion h
  | spin st => simp only [hfl] at h; exact Option.noConfusion h

/-- C10: the account pipeline — freelist walk, ptrmap marking, b-tree
walks over any root list, orphan scan — never assigns the lock-byte role,
so whenever the report is produced its Lock-byte count is 0, for every
input database and root list. -/
theorem c10_lockbyte_zero (e : Env) (roots : List Nat) (fuel : Nat)
    (st' : AcctState) (h : accountPhases e roots fuel = some st') :
    lockByteCount e st' = 0 := by
  have hnl := accountPhases_noLock e roots fuel st' h
  unfold lockByteCount
  rw [List.countP_eq_zero]
  intro p _
  simp [hnl p]

/-- Witness for `c10_lockbyte_zero` on the 1-page database. -/
theorem c10_lockbyte_zero_witness :
    lockByteCount envSinglePage
      ((accountPhases envSinglePage [] 20).getD initAcctState) = 0 :=
  c10_lockbyte_zero envSinglePage [] 20 _ rfl

/-- C9 counterexample: in `envFreelistBtreeOverlap`, page 3 is reached by
the freelist walk and again by the b-tree walk; after the whole account
pipeline it is still classified freelist-leaf, not with the b-tree role
the claim predicts, and no conflict was reported — the b-tree walker
skips already-classified pages before it ever calls `markPage`. -/
theorem c9_counterexample :
    ((accountPhases envFreelistBtreeOverlap [] 30).map (fun st => st.types 3))
      = some PageType.freelistLeaf ∧
    ((accountPhases envFreelistBtreeOverlap [] 30).map (fun st => st.diags)) = some [] ∧
    byteAt envFreelistBtreeOverlap 1 100 = 5 ∧
    get32 envFreelistBtreeOverlap 1 108 = 3 ∧
    get32 envFreelistBtreeOverlap 2 8 = 3 ∧
    ((accountPhases envFreelistBtreeOverlap [] 30).map (fun st => st.types 3))
      ≠ some PageType.btreeLeafTable := by
  decide

/-- C9 (amended): `markPage` on an in-range page already holding a
different non-unknown role reports the conflict and then overwrites both
the recorded type and parent, so among `markPage` callers the last one
wins; but the b-tree walker returns before calling `markPage` on any
already-classified page, so a page reached by both the freelist walk and
a later b-tree walk keeps its freelist role. -/
theorem c9_mark_overwrite (mx : Nat) (st : AcctState) (pgno : Nat) (t : PageType)
    (parent : Nat) (e : Env) (n parent2 depth : Nat) (st2 : AcctState)
    (h1 : 1 ≤ pgno) (h2 : pgno ≤ mx)
    (h3 : st.types pgno ≠ PageType.unknown) (h4 : st.types pgno ≠ t)
    (h5 : st2.types pgno ≠ PageType.unknown) :
    (markPage mx st pgno t parent).types pgno = t ∧
    (markPage mx st pgno t parent).parents pgno = parent ∧
    (markPage mx st pgno t parent).diags
      = st.diags ++ [Diag.conflict pgno (st.types pgno) t] ∧
    acctWalkBtree e (n + 1) pgno parent2 depth st2 = some st2 := by
  have hr : ¬(pgno < 1 ∨ pgno > mx) := by omega
  have hcond : st.types pgno ≠ PageType.unknown ∧ st.types pgno ≠ t := ⟨h3, h4⟩
  refine ⟨?_, ?_, ?_, ?_⟩
  · simp only [markPage]; rw [if_neg hr, if_pos hcond]; simp [setAt]
  · simp only [markPage]; rw [if_neg hr, if_pos hcond]; simp [setAt]
  · simp only [markPage]; rw [if_neg hr, if_pos hcond]
  · show acctWalkBtreeF e (acctWalkBtree e n) n pgno parent2 depth st2 = some st2
    by_cases hrr : pgno < 1 ∨ pgno > e.mxPage
    · simp only [acctWalkBtreeF]; rw [if_pos hrr]
    · simp only [acctWalkBtreeF]; rw [if_neg hrr, if_pos h5]

/-- Witness for `c9_mark_overwrite`: page 3, first marked freelist-leaf,
is re-marked as a table leaf with a conflict report, and the b-tree
walker skips it. -/
theorem c9_mark_overwrite_witness :
    (markPage 3 (markPage 3 initAcctState 3 PageType.freelistLeaf 2) 3
        PageType.btreeLeafTable 1).types 3 = PageType.btreeLeafTable ∧
    (markPage 3 (markPage 3 initAcctState 3 PageType.freelistLeaf 2) 3
        PageType.btreeLeafTable 1).parents 3 = 1 ∧
    (markPage 3 (markPage 3 initAcctState 3 PageType.freelistLeaf 2) 3
        PageType.btreeLeafTable 1).diags
      = (markPage 3 initAcctState 3 PageType.freelistLeaf 2).diags ++
        [Diag.conflict 3
          ((markPage 3 initAcctState 3 PageType.freelistLeaf 2).types 3)
          PageType.btreeLeafTable] ∧
    acctWalkBtree envFreelistBtreeOverlap (4 + 1) 3 0 0
        (markPage 3 initAcctState 3 PageType.freelistLeaf 2)
      = some (markPage 3 initAcctState 3 PageType.freelistLeaf 2) :=
  c9_mark_overwrite 3 (markPage 3 initAcctState 3 PageType.freelistLeaf 2) 3
    PageType.btreeLeafTable 1 envFreelistBtreeOverlap 4 0 0
    (markPage 3 initAcctState 3 PageType.freelistLeaf 2)
    (by decide) (by decide) (by decide) (by decide) (by decide)
